import Mathlib

/-!
Verification development for the indicator service (`src/indicator-service/app.py`).

The embedding models IEEE-754 double values carried in request/response arrays
with an exact value domain `PyFloat`: a finite value is an exact rational
(rounding and overflow of binary64 are not modelled), plus the three special
values NaN, +Inf and -Inf that the service's sanitization logic branches on.
Stateless endpoint logic becomes pure functions; a raised `HTTPException(400)`
becomes `SvcError.client`, and an uncaught Python exception (a 500 response)
becomes `SvcError.py`.

External numeric collaborators (TA-Lib, quantstats, the square root used by
pandas' `std` and `np.sqrt`) are parameters of the embedding: the repository's
own logic — dispatch, alignment, sanitization — is what is defined concretely,
exactly as the specification scopes it.
-/

/-- Model of a Python float value: exact rational for finite doubles, plus the
special values the service's code distinguishes (`np.isnan`, `np.isfinite`). -/
inductive PyFloat where
  | fin (q : ℚ)
  | nan
  | inf
  | ninf
deriving DecidableEq

/-- `np.isfinite` / `math.isfinite` on the value model. -/
def PyFloat.isFinite : PyFloat → Bool
  | .fin _ => true
  | _ => false

/-- Elementwise float subtraction (exact on finite values; IEEE special-value
rules for NaN/Inf; binary64 rounding and overflow are not modelled). -/
def pySub : PyFloat → PyFloat → PyFloat
  | .nan, _ => .nan
  | _, .nan => .nan
  | .fin a, .fin b => .fin (a - b)
  | .fin _, .inf => .ninf
  | .fin _, .ninf => .inf
  | .inf, .fin _ => .inf
  | .inf, .inf => .nan
  | .inf, .ninf => .inf
  | .ninf, .fin _ => .ninf
  | .ninf, .inf => .ninf
  | .ninf, .ninf => .nan

/-- Elementwise float division (exact on finite values; IEEE special-value
rules; the signed zero of binary64 is collapsed to the single rational 0). -/
def pyDiv : PyFloat → PyFloat → PyFloat
  | .nan, _ => .nan
  | _, .nan => .nan
  | .fin a, .fin b =>
      if b = 0 then (if a = 0 then .nan else if 0 < a then .inf else .ninf)
      else .fin (a / b)
  | .fin _, .inf => .fin 0
  | .fin _, .ninf => .fin 0
  | .inf, .fin b => if 0 ≤ b then .inf else .ninf
  | .ninf, .fin b => if 0 ≤ b then .ninf else .inf
  | .inf, .inf => .nan
  | .inf, .ninf => .nan
  | .ninf, .inf => .nan
  | .ninf, .ninf => .nan

/-- `x - 1.0` on the value model. -/
def pySubOne (x : PyFloat) : PyFloat := pySub x (.fin 1)

/-- `_nan_to_none` (app.py line 77-78): element `x` of the iterated array maps
to `None` when `x is None` or `x` is a float NaN, and to `float(x)` otherwise.
An element that is Python `None` is modelled by `Option.none` on the input side.
Note the code tests only `np.isnan`, so the infinities fall into the
`float(x)` branch and are passed through unchanged. -/
def nanToNone (arr : List (Option PyFloat)) : List (Option PyFloat) :=
  arr.map (fun x =>
    match x with
    | none => none
    | some PyFloat.nan => none
    | some v => some v)

/-- `_nan_to_none` applied to a plain float64 array (no Python `None` inside),
the form every `/indicator` branch uses on its result array. -/
def nanToNoneF (xs : List PyFloat) : List (Option PyFloat) :=
  nanToNone (xs.map some)

/-- `_clean_numeric_list` (app.py line 84-91): `None` or an empty list gives an
empty array (`if not values`), otherwise the finite entries are kept in order
(`arr[np.isfinite(arr)]`). -/
def cleanNumericList (values : Option (List PyFloat)) : List PyFloat :=
  match values with
  | none => []
  | some xs =>
      if xs.isEmpty then []
      else xs.filter (fun x => x.isFinite)

/-- `_equity_to_returns` (app.py line 144-152), with numpy's elementwise array
operations written index-by-index: `prev = equity[:-1]`, `curr = equity[1:]`,
`safe_prev = np.where(prev == 0, nan, prev)`, `returns = curr / safe_prev - 1.0`,
and only the finite entries of `returns` are kept (`returns[np.isfinite(...)]`). -/
def equityToReturns (equity : List PyFloat) : List PyFloat :=
  if equity.length < 2 then []
  else
    let rawReturns := (List.range (equity.length - 1)).map (fun i =>
      let prev := equity.getD i PyFloat.nan
      let safePrev := if prev = PyFloat.fin 0 then PyFloat.nan else prev
      pySubOne (pyDiv (equity.getD (i + 1) PyFloat.nan) safePrev))
    rawReturns.filter (fun x => x.isFinite)

/-- Error channel of an endpoint: `client` is a raised `HTTPException` with
status 400 (a client error), `py` is an uncaught Python exception, which the
framework surfaces as a 500 server error. -/
inductive SvcError where
  | client (msg : String)
  | py (msg : String)
deriving DecidableEq

/-- View of an `Except` value as a sum, to decide equality of endpoint
results. -/
def exceptToSum {ε : Type u} {α : Type v} : Except ε α → ε ⊕ α
  | .error e => .inl e
  | .ok a => .inr a

instance {ε : Type u} {α : Type v} [DecidableEq ε] [DecidableEq α] :
    DecidableEq (Except ε α) := fun a b =>
  decidable_of_iff (exceptToSum a = exceptToSum b)
    (by cases a <;> cases b <;> simp [exceptToSum])

/-- Truthiness of the optional `equity` field (`if ... and req.equity`):
`None` and the empty list are falsy, a non-empty list is truthy. -/
def truthyList : Option (List PyFloat) → Bool
  | none => false
  | some xs => !xs.isEmpty

/-- The return-series selection of `quantstats_metrics` (app.py line 161-166):
clean the raw `returns`; if fewer than 2 survive and `equity` is truthy, derive
returns from the cleaned equity curve instead; fail with a 400 client error
when fewer than 2 observations remain. -/
def quantstatsReturns (rets equity : Option (List PyFloat)) :
    Except SvcError (List PyFloat) :=
  let returnsArr := cleanNumericList rets
  let returnsArr :=
    if returnsArr.length < 2 && truthyList equity then
      equityToReturns (cleanNumericList equity)
    else returnsArr
  if returnsArr.length < 2 then
    .error (.client "Provide at least two clean return observations or equity points.")
  else .ok returnsArr

/-- Value returned by one `qs_stats` call, as the `capture` closure of
`quantstats_metrics` discriminates it: a float scalar, an integer scalar, an
ndarray/list/tuple, or any other Python object. -/
inductive QSValue where
  | flt (x : PyFloat)
  | intv (n : ℤ)
  | arr (xs : List QSValue)
  | other

/-- One statistic thunk either raises (`Except.error`) or produces a value. -/
abbrev QSOutcome := Except Unit QSValue

/-- `capture` (app.py line 180-192), second stage: a float scalar passes only
if `math.isfinite` holds, an integer is converted to a float, anything else
(including a nested array as first element) becomes `None`. -/
def captureVal : QSValue → Option PyFloat
  | .flt x => if x.isFinite then some x else none
  | .intv n => some (.fin (n : ℚ))
  | _ => none

/-- `capture` (app.py line 180-192): on an exception the metric becomes
`None`; an ndarray/list/tuple value is replaced by its first element (or NaN
when empty) before the scalar stage. -/
def capture (res : QSOutcome) : Option PyFloat :=
  match res with
  | .error _ => none
  | .ok (.arr xs) => captureVal (xs.headD (.flt PyFloat.nan))
  | .ok v => captureVal v

/-- The 16 statistic names of `quantstats_metrics`, in the order the code
inserts them (app.py line 194-209). -/
def metricNames : List String :=
  ["qs_calmar", "qs_omega", "qs_tail_ratio", "qs_common_sense_ratio",
   "qs_value_at_risk", "qs_cvar", "qs_ulcer_index", "qs_avg_drawdown",
   "qs_avg_drawdown_days", "qs_payoff_ratio", "qs_profit_ratio",
   "qs_gain_to_pain_ratio", "qs_skew", "qs_kurtosis", "qs_win_rate",
   "qs_loss_rate"]

/-- The `metrics` dictionary assembled by `quantstats_metrics`: the sample size
first (`float(series.shape[0])`), then, in insertion order, each statistic name
with the captured outcome of its own `qs_stats` call. The quantstats library
itself is the external collaborator `outcome : String → QSOutcome`. -/
def quantstatsReport (sampleSize : ℕ) (outcome : String → QSOutcome) :
    List (String × Option PyFloat) :=
  ("qs_sample_size", some (.fin (sampleSize : ℚ))) ::
    metricNames.map (fun n => (n, capture (outcome n)))

/-- Model of Python's `str.upper()` (ASCII case mapping). -/
def pyUpper (s : String) : String := ⟨s.data.map Char.toUpper⟩

/-- Model of Python's `str.lower()` (ASCII case mapping). -/
def pyLower (s : String) : String := ⟨s.data.map Char.toLower⟩

/-- Model of Python's `str.strip()`: leading and trailing whitespace removed. -/
def pyStrip (s : String) : String :=
  ⟨((s.data.dropWhile Char.isWhitespace).reverse.dropWhile
      Char.isWhitespace).reverse⟩

/-- Value of a non-empty, all-digit character list; `none` otherwise. -/
def digitsVal (cs : List Char) : Option ℕ :=
  if cs.isEmpty then none
  else cs.foldl (fun acc c =>
    match acc with
    | none => none
    | some n => if c.isDigit then some (n * 10 + (c.toNat - 48)) else none) (some 0)

/-- Mantissa of a Python float literal (already lowercased, no sign, no
exponent): digits with an optional decimal point, at least one digit overall.
The value is returned as a scaled pair `(n, d)` standing for `n / 10 ^ d`. -/
def parseMantissa (cs : List Char) : Option (ℕ × ℕ) :=
  let ip := cs.takeWhile (fun c => c ≠ '.')
  let rest := cs.dropWhile (fun c => c ≠ '.')
  match rest with
  | [] => (digitsVal ip).map (fun n => (n, 0))
  | _ :: fp =>
      if ip.isEmpty && fp.isEmpty then none
      else if !(ip.all Char.isDigit && fp.all Char.isDigit) then none
      else
        some ((digitsVal ip).getD 0 * 10 ^ fp.length + (digitsVal fp).getD 0,
          fp.length)

/-- Unsigned decimal part of a Python float literal, with an optional
`e`-exponent folded into the scaled pair `(n, d)` standing for `n / 10 ^ d`. -/
def parsePyDecimal (cs : List Char) : Option (ℕ × ℕ) :=
  let mant := cs.takeWhile (fun c => c ≠ 'e')
  let rest := cs.dropWhile (fun c => c ≠ 'e')
  match rest with
  | [] => parseMantissa mant
  | _ :: ex =>
      let es : Bool × List Char :=
        match ex with
        | '+' :: t => (false, t)
        | '-' :: t => (true, t)
        | t => (false, t)
      match parseMantissa mant, digitsVal es.2 with
      | some nd, some e =>
          if es.1 then some (nd.1, nd.2 + e) else some (nd.1 * 10 ^ e, nd.2)
      | _, _ => none

/-- Model of Python's builtin `float(str)` on an already stripped and
lowercased string: optional sign, then `inf`/`infinity`/`nan` or a decimal
literal. Underscore separators and the overflow of huge finite literals to
infinity are not modelled. -/
def parsePyFloat (s : String) : Option PyFloat :=
  let cs := s.data
  let sc : Bool × List Char :=
    match cs with
    | '+' :: t => (false, t)
    | '-' :: t => (true, t)
    | t => (false, t)
  if sc.2 = "inf".data || sc.2 = "infinity".data then
    some (if sc.1 then PyFloat.ninf else PyFloat.inf)
  else if sc.2 = "nan".data then some PyFloat.nan
  else
    (parsePyDecimal sc.2).map (fun nd =>
      PyFloat.fin (mkRat (if sc.1 then -(nd.1 : ℤ) else (nd.1 : ℤ)) (10 ^ nd.2)))

/-- Truncation toward zero, the behaviour of Python's `int()` on a finite
float: on the reduced fraction `num / den` this is the truncating integer
division of the numerator by the denominator. -/
def pyTrunc (q : ℚ) : ℤ := q.num.tdiv (q.den : ℤ)

/-- `_PERIOD_SETTINGS` (app.py line 94-110). -/
def periodSettings : List (String × String × ℤ) :=
  [("daily", "D", 252), ("day", "D", 252), ("1d", "D", 252),
   ("weekly", "W", 52), ("week", "W", 52), ("1w", "W", 52),
   ("monthly", "M", 12), ("month", "M", 12), ("1m", "M", 12),
   ("quarterly", "Q", 4), ("quarter", "Q", 4), ("1q", "Q", 4),
   ("yearly", "Y", 1), ("annual", "Y", 1), ("1y", "Y", 1)]

/-- `_resolve_period_settings` (app.py line 113-125). A falsy label (`None` or
the empty string) falls back to `("D", 252)`; otherwise the stripped,
lowercased key is looked up in `_PERIOD_SETTINGS`; otherwise
`int(float(key))` is attempted: a positive result is used as the periods
count, zero or negative falls back, an unparsable string raises `ValueError`
and a NaN raises `ValueError` inside `int`, both caught by the
`except (TypeError, ValueError)` — but an infinite float makes `int` raise
`OverflowError`, which the except clause does not catch, so it escapes as an
uncaught exception (500). -/
def resolvePeriodSettings (label : Option String) : Except SvcError (String × ℤ) :=
  match label with
  | none => .ok ("D", 252)
  | some s =>
      if s = "" then .ok ("D", 252)
      else
        let key := pyLower (pyStrip s)
        match periodSettings.lookup key with
        | some v => .ok v
        | none =>
            match parsePyFloat key with
            | some (.fin q) =>
                if 0 < pyTrunc q then .ok ("D", pyTrunc q) else .ok ("D", 252)
            | some .inf =>
                .error (.py "OverflowError: cannot convert float infinity to integer")
            | some .ninf =>
                .error (.py "OverflowError: cannot convert float infinity to integer")
            | some .nan => .ok ("D", 252)
            | none => .ok ("D", 252)

/-- The `params` mapping of an `/indicator` request, with the fields the
close-only branches read. Numeric parameters are modelled after the `int(...)`
/ `float(...)` coercions the code applies to them; `annualize` is the raw
string the VOLATILITY branch compares against `"true"`. An absent field makes
the branch use its documented default. -/
structure Params where
  period : Option ℤ := none
  fastperiod : Option ℤ := none
  slowperiod : Option ℤ := none
  signalperiod : Option ℤ := none
  matype : Option ℤ := none
  nbdevup : Option ℚ := none
  nbdevdn : Option ℚ := none
  annualize : Option String := none

/-- The TA-Lib collaborator for the close-only path, treated as a black box:
each field models one library function (arrays in, array(s) possibly holding
NaN out). The repository's claims are proved for every such collaborator. -/
structure Talib where
  rsi : List PyFloat → ℤ → List PyFloat
  sma : List PyFloat → ℤ → List PyFloat
  ema : List PyFloat → ℤ → List PyFloat
  macd : List PyFloat → ℤ → ℤ → ℤ → List PyFloat × List PyFloat × List PyFloat
  ppo : List PyFloat → ℤ → ℤ → ℤ → List PyFloat
  bbands : List PyFloat → ℤ → ℚ → ℚ → ℤ → List PyFloat × List PyFloat × List PyFloat

/-- A trivial instantiation of the TA-Lib collaborator, used to evaluate the
dispatcher on concrete inputs whose claims do not involve the library. -/
def talibZero : Talib where
  rsi := fun _ _ => []
  sma := fun _ _ => []
  ema := fun _ _ => []
  macd := fun _ _ _ _ => ([], [], [])
  ppo := fun _ _ _ _ => []
  bbands := fun _ _ _ _ _ => ([], [], [])

/-- Normalisation of a Python slice endpoint: a negative index counts from the
end, and the result is clamped to `[0, len]`. -/
def pySliceIdx (len : ℕ) (i : ℤ) : ℕ :=
  (max 0 (min (if i < 0 then i + (len : ℤ) else i) (len : ℤ))).toNat

/-- Python's `xs[a:b]` on a list (step 1), with negative-index wrapping. -/
def pySlice {α : Type} (xs : List α) (a b : ℤ) : List α :=
  (xs.take (pySliceIdx xs.length b)).drop (pySliceIdx xs.length a)

/-- Elementwise subtraction of two numpy arrays of equal length (`ppo_line -
ppo_signal`); on ragged lengths the model truncates where numpy would raise,
which no claim exercises. -/
def npSub (xs ys : List PyFloat) : List PyFloat := List.zipWith pySub xs ys

/-- Sample variance with one delta degree of freedom, the square of what
`pandas.Series.rolling(window).std()` computes on a full window. -/
def sampleVar (xs : List ℚ) : ℚ :=
  let n : ℚ := (xs.length : ℚ)
  let m : ℚ := xs.sum / n
  ((xs.map (fun x => (x - m) ^ 2)).sum) / (n - 1)

/-- `pandas.Series.rolling(window=w).std().values` for `w ≥ 1` over exact
rationals, with the square root kept abstract as `sq` composed with the window
variance: entry `j` is NaN (`none`) while the window `xs[j+1-w..j]` is
incomplete (`min_periods` defaults to the window size), and also for `w = 1`,
where the sample standard deviation has zero degrees of freedom. -/
def rollingStd (sq : ℚ → ℚ) (xs : List ℚ) (w : ℕ) : List (Option ℚ) :=
  (List.range xs.length).map (fun j =>
    if j + 1 < w then none
    else if w ≤ 1 then none
    else some (sq (sampleVar ((xs.drop (j + 1 - w)).take w))))

/-- `np.diff(prices) / prices[:-1]` (app.py line 319) written index-by-index:
entry `j` is `(prices[j+1] - prices[j]) / prices[j]`. Division is exact
rational division, so a zero price is modelled only up to the claims'
nonzero-price hypotheses. -/
def pricesToReturns (prices : List ℚ) : List ℚ :=
  (List.range (prices.length - 1)).map (fun j =>
    (prices.getD (j + 1) 0 - prices.getD j 0) / prices.getD j 0)

/-- The CUMULATIVE_RETURN branch (app.py line 293-306): reject an empty array
or a zero first price, otherwise fill index 0 with `0.0` and index `i ≥ 1`
with `prices[i-1]/prices[0] - 1` (the numpy steps `result = full(n, nan)`,
`result[1:] = prices[:-1]/prices[0] - 1`, `result[0] = 0` collapse to this
cons for every `n ≥ 1`), then sanitize. -/
def cumulativeReturnBranch (prices : List ℚ) :
    Except SvcError (List (Option PyFloat)) :=
  if prices.length < 1 ∨ prices.getD 0 0 = 0 then
    .error (.client "Invalid prices for cumulative return")
  else
    let p0 := prices.getD 0 0
    .ok (nanToNoneF (PyFloat.fin 0 ::
      prices.dropLast.map (fun p => PyFloat.fin (p / p0 - 1))))

/-- `params.get("annualize", "true").lower() == "true"` (app.py line 313). -/
def annFlag (ps : Params) : Bool := pyLower (ps.annualize.getD "true") == "true"

/-- The VOLATILITY branch (app.py line 308-338). After the length gate, the
return series and its rolling standard deviation are computed; `pandas`
raises `ValueError` for a non-positive window. The lag alignment is
`result[period:] = rolling_vol[period-2:-1]` with Python slice semantics: for
`period = 1` the slice `[-1:-1]` is empty and numpy raises a broadcast
`ValueError`, an uncaught 500. Annualization multiplies by `np.sqrt(252)`,
modelled as `sq 252`. -/
def volatilityBranch (sq : ℚ → ℚ) (prices : List ℚ) (ps : Params) :
    Except SvcError (List (Option PyFloat)) :=
  let period : ℤ := ps.period.getD 20
  let ann : Bool := annFlag ps
  if (prices.length : ℤ) < period + 1 then
    .error (.client ("Need at least " ++ toString (period + 1) ++
      " prices for volatility calculation"))
  else if period ≤ 0 then
    .error (.py "ValueError: window must be an integer 0 or greater")
  else
    let w := period.toNat
    let rets := pricesToReturns prices
    let rollingVol := rollingStd sq rets w
    let rollingVol :=
      if ann then rollingVol.map (Option.map (fun x => x * sq 252)) else rollingVol
    if (prices.length : ℤ) > period then
      let src := pySlice rollingVol (period - 2) (-1)
      if src.length ≠ prices.length - w then
        .error (.py "ValueError: could not broadcast input array")
      else
        .ok (nanToNoneF (List.replicate w PyFloat.nan ++
          src.map (fun o => (o.map PyFloat.fin).getD PyFloat.nan)))
    else
      .ok (nanToNoneF (List.replicate prices.length PyFloat.nan))

/-- The close-only dispatch of `indicator_router` (app.py line 233-341), after
the length gate, keyed on the normalised indicator name. TA-Lib-backed
branches call the abstract collaborator `T` and sanitize its output; the two
custom branches are the lag-correct indicators above; an unknown name is a
400 client error naming the indicator. -/
def closeOnlyDispatch (T : Talib) (sq : ℚ → ℚ) (ind : String) (prices : List ℚ)
    (ps : Params) : Except SvcError (List (Option PyFloat)) :=
  if ind = "CURRENT_PRICE" ∨ ind ∈ ["PRICE", "CLOSE", "LAST"] then
    .ok (nanToNoneF (prices.map PyFloat.fin))
  else if ind = "RSI" then
    let period := ps.period.getD 14
    if (prices.length : ℤ) < period then
      .error (.client "prices length must be >= period")
    else .ok (nanToNoneF (T.rsi (prices.map PyFloat.fin) period))
  else if ind = "SMA" then
    .ok (nanToNoneF (T.sma (prices.map PyFloat.fin) (ps.period.getD 14)))
  else if ind = "EMA" then
    .ok (nanToNoneF (T.ema (prices.map PyFloat.fin) (ps.period.getD 14)))
  else if ind ∈ ["MACD", "MACD_HIST", "MACD-HIST", "MACD_LINE", "MACD_SIGNAL"] then
    let m := T.macd (prices.map PyFloat.fin) (ps.fastperiod.getD 12)
      (ps.slowperiod.getD 26) (ps.signalperiod.getD 9)
    if ind ∈ ["MACD", "MACD_HIST", "MACD-HIST"] then .ok (nanToNoneF m.2.2)
    else if ind = "MACD_LINE" then .ok (nanToNoneF m.1)
    else .ok (nanToNoneF m.2.1)
  else if ind ∈ ["PPO", "PPO_LINE", "PPO_SIGNAL", "PPO_HIST"] then
    let line := T.ppo (prices.map PyFloat.fin) (ps.fastperiod.getD 12)
      (ps.slowperiod.getD 26) (ps.matype.getD 0)
    if ind ∈ ["PPO", "PPO_LINE"] then .ok (nanToNoneF line)
    else
      let sig := T.ema line (ps.signalperiod.getD 9)
      if ind = "PPO_SIGNAL" then .ok (nanToNoneF sig)
      else .ok (nanToNoneF (npSub line sig))
  else if ind ∈ ["BBANDS_UPPER", "BBANDS_MIDDLE", "BBANDS_LOWER"] then
    let b := T.bbands (prices.map PyFloat.fin) (ps.period.getD 20)
      (ps.nbdevup.getD 2) (ps.nbdevdn.getD 2) (ps.matype.getD 0)
    if ind = "BBANDS_UPPER" then .ok (nanToNoneF b.1)
    else if ind = "BBANDS_MIDDLE" then .ok (nanToNoneF b.2.1)
    else .ok (nanToNoneF b.2.2)
  else if ind = "CUMULATIVE_RETURN" then cumulativeReturnBranch prices
  else if ind = "VOLATILITY" then volatilityBranch sq prices ps
  else .error (.client ("Unsupported close-only indicator '" ++ ind ++ "'"))

/-- The close-only path of `indicator_router` (app.py line 223-341) for a
payload containing `"prices"`: the indicator name is uppercased and stripped
(`(payload.get("indicator") or "").upper().strip()`), arrays of fewer than 2
prices are rejected with a 400 before any branch runs, and the request is then
dispatched on the name. -/
def closeOnlyRoute (T : Talib) (sq : ℚ → ℚ) (indicator : Option String)
    (prices : List ℚ) (ps : Params) : Except SvcError (List (Option PyFloat)) :=
  let ind := pyStrip (pyUpper (indicator.getD ""))
  if prices.length < 2 then
    .error (.client "prices must contain at least 2 values")
  else closeOnlyDispatch T sq ind prices ps

/-- Simple returns as the specification words them: `d[j] = P[j+1]/P[j] - 1`
for `j = 0 .. n-2`. Over exact rationals this agrees with the code's
`np.diff(prices)/prices[:-1]` exactly when no price is zero. -/
def simpleReturns (prices : List ℚ) : List ℚ :=
  (List.range (prices.length - 1)).map (fun j =>
    prices.getD (j + 1) 0 / prices.getD j 0 - 1)

/-- The derived return series as the specification words it: for each
consecutive pair, `r[i] = equity[i+1]/equity[i] - 1`, an observation with a
zero denominator or a non-finite result being dropped, the finite values kept
in order. Stated to be compared with the code's `equityToReturns`. -/
def returnSeriesSpec (equity : List PyFloat) : List PyFloat :=
  (List.range (equity.length - 1)).filterMap (fun i =>
    if equity.getD i PyFloat.nan = PyFloat.fin 0 then none
    else
      let r := pySubOne (pyDiv (equity.getD (i + 1) PyFloat.nan)
        (equity.getD i PyFloat.nan))
      if r.isFinite then some r else none)

/-! ## Helper lemmas -/

/-- Sanitizing an array of finite values wraps each entry in `some`. -/
lemma nanToNoneF_map_fin {α : Type} (g : α → ℚ) (l : List α) :
    nanToNoneF (l.map (fun a => PyFloat.fin (g a))) =
      l.map (fun a => some (PyFloat.fin (g a))) := by
  induction l with
  | nil => rfl
  | cons a t ih =>
      simp only [nanToNoneF, nanToNone, List.map] at ih ⊢
      simp [ih]

/-- Entrywise description of the sanitizer. -/
lemma nanToNone_getElem? (xs : List (Option PyFloat)) (i : ℕ) :
    (nanToNone xs)[i]? = (xs[i]?).map (fun x =>
      match x with
      | none => none
      | some PyFloat.nan => none
      | some v => some v) := by
  simp [nanToNone]

/-! ## C4: numeric sanitizer -/

/-- C4, counterexample: the claim says every non-finite value becomes the null
marker, but `_nan_to_none` maps `+Inf` to itself (only NaN and `None` are
nulled), so on the one-element array `[inf]` the output entry is `inf`, not
null. -/
theorem nan_to_none_claim_false :
    ¬ (∀ xs : List (Option PyFloat), ∀ i : ℕ, ∀ x : PyFloat,
        xs[i]? = some (some x) → x.isFinite = false →
        (nanToNone xs)[i]? = some none) := by
  intro h
  exact absurd (h [some PyFloat.inf] 0 PyFloat.inf (by decide) (by decide))
    (by decide)

/-- C4, amended: the sanitizer preserves length and order and never fails;
`None` and NaN entries become the null marker, every other value — finite
floats and also the two infinities — is preserved as itself. -/
theorem nan_to_none_amended (xs : List (Option PyFloat)) :
    (nanToNone xs).length = xs.length ∧
    (∀ i : ℕ, xs[i]? = some none → (nanToNone xs)[i]? = some none) ∧
    (∀ i : ℕ, xs[i]? = some (some PyFloat.nan) → (nanToNone xs)[i]? = some none) ∧
    (∀ (i : ℕ) (x : PyFloat), xs[i]? = some (some x) → x ≠ PyFloat.nan →
      (nanToNone xs)[i]? = some (some x)) := by
  refine ⟨by simp [nanToNone], ?_, ?_, ?_⟩
  · intro i hi
    rw [nanToNone_getElem?, hi]
    rfl
  · intro i hi
    rw [nanToNone_getElem?, hi]
    rfl
  · intro i x hi hx
    rw [nanToNone_getElem?, hi]
    cases x with
    | fin q => rfl
    | nan => exact absurd rfl hx
    | inf => rfl
    | ninf => rfl

/-- C4, witness: on `[None, NaN, 3.0, inf]` the amended theorem computes the
entry for the finite value `3.0`. -/
theorem nan_to_none_amended_witness :
    (nanToNone [none, some PyFloat.nan, some (PyFloat.fin 3),
      some PyFloat.inf])[2]? = some (some (PyFloat.fin 3)) :=
  (nan_to_none_amended [none, some PyFloat.nan, some (PyFloat.fin 3),
    some PyFloat.inf]).2.2.2 2 (PyFloat.fin 3) (by decide) (by decide)

/-! ## C9: close-only length gate -/

/-- C9: every close-only `/indicator` request whose prices array has fewer
than 2 elements fails with the 400 length error before any indicator-specific
logic runs — for every indicator name, every parameter set and every
behaviour of the TA-Lib collaborator. -/
theorem close_only_length_gate (T : Talib) (sq : ℚ → ℚ)
    (indicator : Option String) (prices : List ℚ) (ps : Params)
    (h : prices.length < 2) :
    closeOnlyRoute T sq indicator prices ps =
      .error (.client "prices must contain at least 2 values") := by
  simp [closeOnlyRoute, h]

/-- C9, witness: the length gate on a one-element CURRENT_PRICE request. -/
theorem close_only_length_gate_witness :
    closeOnlyRoute talibZero id (some "CURRENT_PRICE") [7] {} =
      .error (.client "prices must contain at least 2 values") :=
  close_only_length_gate talibZero id (some "CURRENT_PRICE") [7] {} (by decide)

/-! ## C10: CURRENT_PRICE identity -/

/-- C10: with at least 2 prices and an indicator name that normalises
(uppercase, then strip) to CURRENT_PRICE, PRICE, CLOSE or LAST, the endpoint
returns the input prices themselves, sanitized — same length, same order,
every entry present. -/
theorem current_price_identity (T : Talib) (sq : ℚ → ℚ)
    (indicator : Option String) (prices : List ℚ) (ps : Params)
    (hname : pyStrip (pyUpper (indicator.getD "")) ∈
      ["CURRENT_PRICE", "PRICE", "CLOSE", "LAST"])
    (hlen : 2 ≤ prices.length) :
    closeOnlyRoute T sq indicator prices ps =
      .ok (prices.map (fun p => some (PyFloat.fin p))) := by
  have hgate : ¬ (prices.length < 2) := by omega
  have hcond : pyStrip (pyUpper (indicator.getD "")) = "CURRENT_PRICE" ∨
      pyStrip (pyUpper (indicator.getD "")) ∈ ["PRICE", "CLOSE", "LAST"] := by
    simp only [List.mem_cons, List.mem_singleton, List.not_mem_nil] at hname ⊢
    tauto
  simp only [closeOnlyRoute, closeOnlyDispatch, if_neg hgate, if_pos hcond]
  exact congrArg Except.ok (nanToNoneF_map_fin id prices)

/-- C10, witness: a lowercase, padded name `" current_price "` on `[1, 2]`. -/
theorem current_price_identity_witness :
    closeOnlyRoute talibZero id (some " current_price ") [1, 2] {} =
      .ok ([1, 2].map (fun p => some (PyFloat.fin p))) :=
  current_price_identity talibZero id (some " current_price ") [1, 2] {}
    (by decide) (by decide)

/-! ## C8: period resolver -/

/-- C8, counterexample: the claim says the resolver is total and never fails,
but for the label `"inf"` the code reaches `int(float("inf"))`, which raises
`OverflowError` — a type not caught by the `except (TypeError, ValueError)`
clause — so the request dies with an uncaught exception instead of returning
the fallback pair. -/
theorem resolve_period_claim_false :
    resolvePeriodSettings (some "inf") =
      .error (.py "OverflowError: cannot convert float infinity to integer") := by
  decide

/-- C8, amended: absent or empty labels resolve to `(D, 252)`; recognised
labels map through the table, case-insensitively after stripping; an
unrecognised string parsing as a finite number resolves to its truncation
toward zero when that is positive, and falls back to `(D, 252)` otherwise
(so `"0.5"` and `"2.7"` resolve to the fallback and to `(D, 2)`, not to the
fractional count the claim reads); unparsable strings and NaN fall back; and
a string parsing to an infinity raises an uncaught `OverflowError` instead of
resolving. The table itself is as the claim lists. -/
theorem resolve_period_amended :
    resolvePeriodSettings none = .ok ("D", 252) ∧
    resolvePeriodSettings (some "") = .ok ("D", 252) ∧
    (∀ (s : String) (v : String × ℤ), s ≠ "" →
      periodSettings.lookup (pyLower (pyStrip s)) = some v →
      resolvePeriodSettings (some s) = .ok v) ∧
    (∀ (s : String) (q : ℚ), s ≠ "" →
      periodSettings.lookup (pyLower (pyStrip s)) = none →
      parsePyFloat (pyLower (pyStrip s)) = some (PyFloat.fin q) →
      0 < pyTrunc q →
      resolvePeriodSettings (some s) = .ok ("D", pyTrunc q)) ∧
    (∀ (s : String) (q : ℚ), s ≠ "" →
      periodSettings.lookup (pyLower (pyStrip s)) = none →
      parsePyFloat (pyLower (pyStrip s)) = some (PyFloat.fin q) →
      pyTrunc q ≤ 0 →
      resolvePeriodSettings (some s) = .ok ("D", 252)) ∧
    (∀ s : String, s ≠ "" →
      periodSettings.lookup (pyLower (pyStrip s)) = none →
      (parsePyFloat (pyLower (pyStrip s)) = none ∨
        parsePyFloat (pyLower (pyStrip s)) = some PyFloat.nan) →
      resolvePeriodSettings (some s) = .ok ("D", 252)) ∧
    (∀ s : String, s ≠ "" →
      periodSettings.lookup (pyLower (pyStrip s)) = none →
      (parsePyFloat (pyLower (pyStrip s)) = some PyFloat.inf ∨
        parsePyFloat (pyLower (pyStrip s)) = some PyFloat.ninf) →
      resolvePeriodSettings (some s) =
        .error (.py "OverflowError: cannot convert float infinity to integer")) ∧
    (periodSettings.lookup "daily" = some ("D", 252) ∧
      periodSettings.lookup "day" = some ("D", 252) ∧
      periodSettings.lookup "1d" = some ("D", 252) ∧
      periodSettings.lookup "weekly" = some ("W", 52) ∧
      periodSettings.lookup "week" = some ("W", 52) ∧
      periodSettings.lookup "1w" = some ("W", 52) ∧
      periodSettings.lookup "monthly" = some ("M", 12) ∧
      periodSettings.lookup "month" = some ("M", 12) ∧
      periodSettings.lookup "1m" = some ("M", 12) ∧
      periodSettings.lookup "quarterly" = some ("Q", 4) ∧
      periodSettings.lookup "quarter" = some ("Q", 4) ∧
      periodSettings.lookup "1q" = some ("Q", 4) ∧
      periodSettings.lookup "yearly" = some ("Y", 1) ∧
      periodSettings.lookup "annual" = some ("Y", 1) ∧
      periodSettings.lookup "1y" = some ("Y", 1)) := by
  refine ⟨by decide, by decide, ?_, ?_, ?_, ?_, ?_, by decide⟩
  · intro s v hs hl
    simp [resolvePeriodSettings, hs, hl]
  · intro s q hs hl hp ht
    simp [resolvePeriodSettings, hs, hl, hp, ht]
  · intro s q hs hl hp ht
    have hng : ¬ (0 < pyTrunc q) := by omega
    simp [resolvePeriodSettings, hs, hl, hp, hng]
  · intro s hs hl hp
    rcases hp with hp | hp <;> simp [resolvePeriodSettings, hs, hl, hp]
  · intro s hs hl hp
    rcases hp with hp | hp <;> simp [resolvePeriodSettings, hs, hl, hp]

/-- C8, witness: the numeric clause of the amended theorem at label `"30"`. -/
theorem resolve_period_amended_witness :
    resolvePeriodSettings (some "30") = .ok ("D", pyTrunc 30) :=
  resolve_period_amended.2.2.2.1 "30" 30 (by decide) (by decide) (by decide)
    (by decide)

/-! ## C5: metrics normalizer path selection -/

/-- C5: the `/metrics/quantstats` return-series selection uses the cleaned raw
returns when at least 2 survive; otherwise, with a truthy equity curve, the
equity-derived series; and it fails — with the 400 client error — exactly when
neither path yields at least 2 clean observations. -/
theorem quantstats_selection (rets equity : Option (List PyFloat)) :
    (2 ≤ (cleanNumericList rets).length →
      quantstatsReturns rets equity = .ok (cleanNumericList rets)) ∧
    ((cleanNumericList rets).length < 2 → truthyList equity = true →
      2 ≤ (equityToReturns (cleanNumericList equity)).length →
      quantstatsReturns rets equity =
        .ok (equityToReturns (cleanNumericList equity))) ∧
    ((∃ e : SvcError, quantstatsReturns rets equity = .error e) ↔
      ((cleanNumericList rets).length < 2 ∧
        (equityToReturns (cleanNumericList equity)).length < 2)) := by
  have hfalsy : truthyList equity = false → cleanNumericList equity = [] := by
    cases equity with
    | none => intro _; rfl
    | some xs =>
        intro h
        cases xs with
        | nil => rfl
        | cons a t => simp [truthyList] at h
  by_cases h0 : (cleanNumericList rets).length < 2
  · cases hteq : truthyList equity with
    | true =>
        by_cases hd : (equityToReturns (cleanNumericList equity)).length < 2
        · refine ⟨by omega, fun _ _ h2 => by omega, ?_⟩
          simp only [quantstatsReturns, h0, hteq]
          simp [hd, h0]
        · refine ⟨by omega, fun _ _ _ => ?_, ?_⟩
          · simp only [quantstatsReturns, h0, hteq]
            simp [hd, h0]
          · simp only [quantstatsReturns, h0, hteq]
            simp [hd, h0]
    | false =>
        have heq : cleanNumericList equity = [] := hfalsy hteq
        have hd : (equityToReturns (cleanNumericList equity)).length < 2 := by
          rw [heq]
          decide
        refine ⟨by omega, fun _ ht _ => Bool.noConfusion ht, ?_⟩
        simp only [quantstatsReturns, h0, hteq]
        simp [h0, hd]
  · refine ⟨fun _ => ?_, fun h => by omega, ?_⟩
    · simp only [quantstatsReturns]
      simp [h0]
    · simp only [quantstatsReturns]
      simp [h0]

/-- C5, witness: two clean raw returns present, equity ignored. -/
theorem quantstats_selection_witness :
    quantstatsReturns (some [PyFloat.fin 1, PyFloat.nan, PyFloat.fin 2])
        (some [PyFloat.fin 1]) =
      .ok (cleanNumericList (some [PyFloat.fin 1, PyFloat.nan, PyFloat.fin 2])) :=
  (quantstats_selection (some [PyFloat.fin 1, PyFloat.nan, PyFloat.fin 2])
    (some [PyFloat.fin 1])).1 (by decide)

/-! ## C6: equity-to-returns derivation -/

/-- Dividing any float by NaN yields NaN. -/
lemma pyDiv_nan_right (x : PyFloat) : pyDiv x PyFloat.nan = PyFloat.nan := by
  cases x <;> rfl

/-- Filtering a mapped list is the filterMap of the composed test. -/
lemma filter_map_eq_filterMap {α β : Type} (f : α → β) (p : β → Bool)
    (l : List α) :
    (l.map f).filter p = l.filterMap (fun a => if p (f a) then some (f a) else none) := by
  induction l with
  | nil => rfl
  | cons a t ih => by_cases h : p (f a) <;> simp [h, ih]

/-- C6: the code's equity-to-returns array pipeline (slice, `np.where` zero
mask, elementwise divide-and-subtract, finite filter) computes exactly the
specification's series: `r[i] = equity[i+1]/equity[i] - 1` over consecutive
pairs in order, observations with a zero denominator or a non-finite result
dropped, finite values kept in order. -/
theorem equity_to_returns_spec (equity : List PyFloat) :
    equityToReturns equity = returnSeriesSpec equity := by
  by_cases h2 : equity.length < 2
  · have hr : equity.length - 1 = 0 := by omega
    simp [equityToReturns, returnSeriesSpec, h2, hr]
  · simp only [equityToReturns, returnSeriesSpec, if_neg h2]
    rw [filter_map_eq_filterMap]
    refine List.filterMap_congr ?_
    intro i _
    dsimp only
    by_cases hz : equity.getD i PyFloat.nan = PyFloat.fin 0
    · rw [hz]
      simp [pyDiv_nan_right, pySubOne, pySub, PyFloat.isFinite]
    · simp only [if_neg hz]

/-! ## C7: metrics aggregator failure isolation -/

/-- Looking a key up in an association list built by pairing each key with a
function of itself returns that function's value on the key. -/
lemma lookup_map_pair {β : Type} (f : String → β) (l : List String) (a : String)
    (h : a ∈ l) : (l.map (fun n => (n, f n))).lookup a = some (f a) := by
  induction l with
  | nil => cases h
  | cons n t ih =>
      by_cases hn : a = n
      · subst hn
        simp [List.lookup]
      · cases h with
        | head => exact absurd rfl hn
        | tail _ h =>
            simp only [List.map, List.lookup, beq_eq_false_iff_ne.mpr hn]
            exact ih h

/-- Whatever such a lookup returns is the function's value on the key. -/
lemma lookup_map_pair_some {β : Type} (f : String → β) (l : List String)
    (a : String) (b : β)
    (h : (l.map (fun n => (n, f n))).lookup a = some b) : b = f a := by
  induction l with
  | nil => simp [List.lookup] at h
  | cons n t ih =>
      by_cases hn : a = n
      · subst hn
        simp [List.lookup] at h
        exact h.symm
      · simp only [List.map, List.lookup, beq_eq_false_iff_ne.mpr hn] at h
        exact ih h

/-- A captured metric value is always finite. -/
lemma capture_finite (r : QSOutcome) (v : PyFloat) (h : capture r = some v) :
    v.isFinite = true := by
  have hval : ∀ w : QSValue, captureVal w = some v → v.isFinite = true := by
    intro w hw
    cases w with
    | flt x =>
        cases x with
        | fin q =>
            simp [captureVal, PyFloat.isFinite] at hw
            rw [← hw]
            rfl
        | nan => simp [captureVal, PyFloat.isFinite] at hw
        | inf => simp [captureVal, PyFloat.isFinite] at hw
        | ninf => simp [captureVal, PyFloat.isFinite] at hw
    | intv n =>
        simp [captureVal] at hw
        rw [← hw]
        rfl
    | arr xs => simp [captureVal] at hw
    | other => simp [captureVal] at hw
  cases r with
  | error e => simp [capture] at h
  | ok w => cases w <;> simp only [capture] at h <;> exact hval _ h

/-- C7: in the metrics report, the key set is always the fixed 17 names in
order regardless of what the statistics do; each named statistic's entry is
the capture of its own outcome only (so a raising or non-finite statistic
yields a null entry while every other name is still present and unaffected);
and no entry ever carries a non-finite value. -/
theorem metrics_isolation (sampleSize : ℕ) (oc ocn : String → QSOutcome)
    (name : String) (hname : name ∈ metricNames) (hagree : oc name = ocn name) :
    ((quantstatsReport sampleSize oc).map Prod.fst =
      "qs_sample_size" :: metricNames) ∧
    ((quantstatsReport sampleSize oc).lookup name = some (capture (oc name))) ∧
    ((quantstatsReport sampleSize oc).lookup name =
      (quantstatsReport sampleSize ocn).lookup name) ∧
    (∀ e : Unit, oc name = .error e →
      (quantstatsReport sampleSize oc).lookup name = some none) ∧
    (∀ x : PyFloat, x.isFinite = false → oc name = .ok (.flt x) →
      (quantstatsReport sampleSize oc).lookup name = some none) ∧
    (∀ (nm : String) (v : PyFloat),
      (quantstatsReport sampleSize oc).lookup nm = some (some v) →
      v.isFinite = true) := by
  have hns : name ≠ "qs_sample_size" := by
    intro he
    rw [he] at hname
    exact absurd hname (by decide)
  have hlk : ∀ g : String → QSOutcome,
      (quantstatsReport sampleSize g).lookup name = some (capture (g name)) := by
    intro g
    simp only [quantstatsReport, List.lookup, beq_eq_false_iff_ne.mpr hns]
    exact lookup_map_pair (fun n => capture (g n)) metricNames name hname
  refine ⟨?_, hlk oc, ?_, ?_, ?_, ?_⟩
  · simp [quantstatsReport, Function.comp_def]
  · rw [hlk oc, hlk ocn, hagree]
  · intro e he
    rw [hlk oc, he]
    rfl
  · intro x hx he
    rw [hlk oc, he]
    simp [capture, captureVal, hx]
  · intro nm v hv
    by_cases hnm : nm = "qs_sample_size"
    · subst hnm
      simp only [quantstatsReport, List.lookup, beq_self_eq_true] at hv
      cases hv
      rfl
    · simp only [quantstatsReport, List.lookup,
        beq_eq_false_iff_ne.mpr hnm] at hv
      have := lookup_map_pair_some (fun n => capture (oc n)) metricNames nm
        (some v) hv
      exact capture_finite (oc nm) v this.symm

/-- C7, witness: a raising Calmar statistic yields a null entry. -/
theorem metrics_isolation_witness :
    (quantstatsReport 5 (fun _ => Except.error ())).lookup "qs_calmar" =
      some none :=
  (metrics_isolation 5 (fun _ => Except.error ()) (fun _ => Except.error ())
    "qs_calmar" (by decide) rfl).2.2.2.1 () rfl

/-! ## C3: cumulative return -/

/-- After the length gate, the close-only route is the dispatch on the
normalised name. -/
lemma closeOnlyRoute_dispatch (T : Talib) (sq : ℚ → ℚ)
    (indicator : Option String) (prices : List ℚ) (ps : Params)
    (h : ¬ (prices.length < 2)) :
    closeOnlyRoute T sq indicator prices ps =
      closeOnlyDispatch T sq (pyStrip (pyUpper (indicator.getD ""))) prices ps := by
  simp [closeOnlyRoute, h]

/-- Dispatch on the literal name CUMULATIVE_RETURN reaches its branch. -/
lemma dispatch_cumulative_return (T : Talib) (sq : ℚ → ℚ) (prices : List ℚ)
    (ps : Params) :
    closeOnlyDispatch T sq "CUMULATIVE_RETURN" prices ps =
      cumulativeReturnBranch prices := rfl

/-- Dispatch on the literal name VOLATILITY reaches its branch. -/
lemma dispatch_volatility_name (T : Talib) (sq : ℚ → ℚ) (prices : List ℚ)
    (ps : Params) :
    closeOnlyDispatch T sq "VOLATILITY" prices ps =
      volatilityBranch sq prices ps := rfl

/-- An in-range optional lookup is the default-valued entry. -/
lemma getElem?_eq_some_getD {α : Type} (l : List α) (j : ℕ) (d : α)
    (h : j < l.length) : l[j]? = some (l.getD j d) := by
  rw [List.getD_eq_getElem?_getD, List.getElem?_eq_getElem h]
  rfl

/-- C3, counterexample: the claim promises output `[0]` for the length-1
array `[5]` (its first price is nonzero), but the router's close-only length
gate rejects every array of fewer than 2 prices before the
CUMULATIVE_RETURN branch can run. -/
theorem cumret_claim_false :
    closeOnlyRoute talibZero id (some "CUMULATIVE_RETURN") [5] {} =
      .error (.client "prices must contain at least 2 values") := by
  decide

/-- C3, amended: for price arrays of length at least 2 (the router gate
forces this; the claim's `n ≥ 1` is unattainable for `n = 1`), a zero first
price is a 400 client error, and otherwise the output has the input's
length, entry 0 is `0.0`, and entry `i ≥ 1` is `P[i-1]/P[0] - 1`. -/
theorem cumret_route (T : Talib) (sq : ℚ → ℚ) (prices : List ℚ) (ps : Params)
    (h2 : 2 ≤ prices.length) :
    (prices.getD 0 0 = 0 →
      closeOnlyRoute T sq (some "CUMULATIVE_RETURN") prices ps =
        .error (.client "Invalid prices for cumulative return")) ∧
    (prices.getD 0 0 ≠ 0 →
      ∃ V : List (Option PyFloat),
        closeOnlyRoute T sq (some "CUMULATIVE_RETURN") prices ps = .ok V ∧
        V.length = prices.length ∧
        V[0]? = some (some (PyFloat.fin 0)) ∧
        (∀ i : ℕ, 1 ≤ i → i < prices.length →
          V[i]? = some (some (PyFloat.fin
            (prices.getD (i - 1) 0 / prices.getD 0 0 - 1))))) := by
  have hg : ¬ (prices.length < 2) := by omega
  have hroute : closeOnlyRoute T sq (some "CUMULATIVE_RETURN") prices ps =
      cumulativeReturnBranch prices := by
    rw [closeOnlyRoute_dispatch T sq _ prices ps hg,
      show pyStrip (pyUpper ((some "CUMULATIVE_RETURN").getD "")) =
        "CUMULATIVE_RETURN" from by decide,
      dispatch_cumulative_return]
  constructor
  · intro hz
    rw [hroute]
    simp only [cumulativeReturnBranch]
    rw [if_pos (Or.inr hz)]
  · intro hz
    rw [hroute]
    have hguard : ¬ (prices.length < 1 ∨ prices.getD 0 0 = 0) := by
      push_neg
      exact ⟨by omega, hz⟩
    refine ⟨some (PyFloat.fin 0) :: prices.dropLast.map
        (fun p => some (PyFloat.fin (p / prices.getD 0 0 - 1))), ?_, ?_,
        List.getElem?_cons_zero, ?_⟩
    · simp only [cumulativeReturnBranch, if_neg hguard]
      congr 1
      simpa [nanToNoneF, nanToNone] using
        nanToNoneF_map_fin (fun p => p / prices.getD 0 0 - 1) prices.dropLast
    · simp only [List.length_cons, List.length_map, List.length_dropLast]
      omega
    · intro i h1 hi
      obtain ⟨j, rfl⟩ : ∃ j, i = j + 1 := ⟨i - 1, by omega⟩
      have hj : j < prices.length - 1 := by omega
      rw [List.getElem?_cons_succ, List.getElem?_map, List.dropLast_eq_take,
        List.getElem?_take, if_pos hj,
        getElem?_eq_some_getD prices j 0 (by omega)]
      simp

/-- C3, witness: the amended theorem at the two-price array `[1, 2]`. -/
theorem cumret_route_witness :
    ∃ V : List (Option PyFloat),
      closeOnlyRoute talibZero id (some "CUMULATIVE_RETURN") [1, 2] {} = .ok V ∧
      V.length = ([1, 2] : List ℚ).length ∧
      V[0]? = some (some (PyFloat.fin 0)) ∧
      (∀ i : ℕ, 1 ≤ i → i < ([1, 2] : List ℚ).length →
        V[i]? = some (some (PyFloat.fin
          (([1, 2] : List ℚ).getD (i - 1) 0 / ([1, 2] : List ℚ).getD 0 0 - 1)))) :=
  (cumret_route talibZero id [1, 2] {} (by decide)).2 (by decide)

/-! ## C1, C2: rolling volatility -/

/-- Length of the return series is one less than the price series. -/
lemma pricesToReturns_length (prices : List ℚ) :
    (pricesToReturns prices).length = prices.length - 1 := by
  simp [pricesToReturns]

/-- Entrywise description of the return series. -/
lemma pricesToReturns_getElem? (prices : List ℚ) (j : ℕ)
    (h : j < prices.length - 1) :
    (pricesToReturns prices)[j]? = some
      ((prices.getD (j + 1) 0 - prices.getD j 0) / prices.getD j 0) := by
  unfold pricesToReturns
  rw [List.getElem?_map, List.getElem?_range h]
  rfl

/-- The rolling standard deviation has the length of its input. -/
lemma rollingStd_length (sq : ℚ → ℚ) (xs : List ℚ) (w : ℕ) :
    (rollingStd sq xs w).length = xs.length := by
  simp [rollingStd]

/-- Entrywise description of the rolling standard deviation for a window of
at least 2. -/
lemma rollingStd_getElem? (sq : ℚ → ℚ) (xs : List ℚ) (w j : ℕ)
    (h : j < xs.length) (hw : 2 ≤ w) :
    (rollingStd sq xs w)[j]? = some
      (if j + 1 < w then none
       else some (sq (sampleVar ((xs.drop (j + 1 - w)).take w)))) := by
  unfold rollingStd
  rw [List.getElem?_map, List.getElem?_range h]
  have hw1 : ¬ (w ≤ 1) := by omega
  simp [hw1]

/-- The Python end index `-1` denotes the last position. -/
lemma pySliceIdx_neg_one (len : ℕ) (h : 1 ≤ len) :
    pySliceIdx len (-1) = len - 1 := by
  unfold pySliceIdx
  rw [if_pos (by omega : (-1 : ℤ) < 0), min_eq_left (by omega),
    max_eq_right (by omega)]
  omega

/-- A nonnegative in-range Python start index denotes itself. -/
lemma pySliceIdx_nonneg (len : ℕ) (a : ℤ) (ha : 0 ≤ a) (hal : a ≤ (len : ℤ)) :
    pySliceIdx len a = a.toNat := by
  unfold pySliceIdx
  rw [if_neg (by omega : ¬ (a < 0)), min_eq_left hal, max_eq_right ha]

/-- `xs[a:-1]` for a nonnegative in-range `a` is drop-after-take. -/
lemma pySlice_to_take_drop {α : Type} (xs : List α) (a : ℤ) (ha : 0 ≤ a)
    (hal : a ≤ (xs.length : ℤ)) (h1 : 1 ≤ xs.length) :
    pySlice xs a (-1) = (xs.take (xs.length - 1)).drop a.toNat := by
  unfold pySlice
  rw [pySliceIdx_neg_one xs.length h1, pySliceIdx_nonneg xs.length a ha hal]

/-- Entrywise description of the all-float sanitizer. -/
lemma nanToNoneF_getElem? (xs : List PyFloat) (i : ℕ) :
    (nanToNoneF xs)[i]? = (xs[i]?).map (fun x =>
      match x with
      | PyFloat.nan => none
      | v => some v) := by
  unfold nanToNoneF nanToNone
  rw [List.map_map, List.getElem?_map]
  rcases hv : xs[i]? with _ | v
  · rfl
  · cases v <;> rfl

/-- Success shape of the VOLATILITY branch: for a window of at least 2 and
enough prices, the branch returns an array of the input's length whose first
`period + 1` entries are missing and whose entry `i ≥ period + 1` is the
(optionally annualized) rolling standard deviation of the returns window
`d[i-period-1 .. i-2]` — one day of lag, never touching `P[i]`. -/
lemma volatilityBranch_ok (sq : ℚ → ℚ) (prices : List ℚ) (ps : Params)
    (p : ℤ) (w : ℕ) (hpeq : ps.period.getD 20 = p) (hweq : w = p.toNat)
    (hp : 2 ≤ p) (hn : p + 1 ≤ (prices.length : ℤ)) :
    ∃ V : List (Option PyFloat),
      volatilityBranch sq prices ps = .ok V ∧
      V.length = prices.length ∧
      (∀ i : ℕ, i < prices.length → (i : ℤ) < p + 1 → V[i]? = some none) ∧
      (∀ i : ℕ, p + 1 ≤ (i : ℤ) → i < prices.length →
        V[i]? = some (some (PyFloat.fin
          (if annFlag ps then
            sq (sampleVar (((pricesToReturns prices).drop (i - w - 1)).take w))
              * sq 252
          else
            sq (sampleVar (((pricesToReturns prices).drop (i - w - 1)).take w)))))) := by
  have hw2 : 2 ≤ w := by omega
  have hn2 : w + 1 ≤ prices.length := by omega
  set rets : List ℚ := pricesToReturns prices with hretsdef
  have hretlen : rets.length = prices.length - 1 := pricesToReturns_length prices
  set μ : Option ℚ → Option ℚ :=
    if annFlag ps then Option.map (fun x => x * sq 252) else id with hμdef
  set rva : List (Option ℚ) := (rollingStd sq rets w).map μ with hrvadef
  have hrvalen : rva.length = prices.length - 1 := by
    rw [hrvadef, List.length_map, rollingStd_length, hretlen]
  have hμnone : μ none = none := by
    rw [hμdef]
    cases annFlag ps <;> simp
  have hannmap : (if annFlag ps then
        (rollingStd sq rets w).map (Option.map (fun x => x * sq 252))
      else rollingStd sq rets w) = rva := by
    rw [hrvadef, hμdef]
    cases annFlag ps <;> simp
  have hslice : pySlice rva (p - 2) (-1) =
      (rva.take (prices.length - 2)).drop (w - 2) := by
    rw [pySlice_to_take_drop rva (p - 2) (by omega)
      (by rw [hrvalen]; omega) (by rw [hrvalen]; omega)]
    rw [hrvalen, show ((p : ℤ) - 2).toNat = w - 2 from by omega,
      show prices.length - 1 - 1 = prices.length - 2 from by omega]
  set src : List (Option ℚ) := (rva.take (prices.length - 2)).drop (w - 2)
    with hsrcdef
  have hsrclen : src.length = prices.length - w := by
    rw [hsrcdef, List.length_drop, List.length_take, hrvalen]
    omega
  have hsrcget : ∀ t : ℕ, t < prices.length - w →
      src[t]? = rva[w - 2 + t]? := by
    intro t ht
    rw [hsrcdef, List.getElem?_drop, List.getElem?_take, if_pos (by omega)]
  have hrvaget : ∀ j : ℕ, j < prices.length - 1 →
      rva[j]? = some (μ (if j + 1 < w then none
        else some (sq (sampleVar ((rets.drop (j + 1 - w)).take w))))) := by
    intro j hj
    rw [hrvadef, List.getElem?_map,
      rollingStd_getElem? sq rets w j (by rw [hretlen]; exact hj) hw2]
    rfl
  set arg : List PyFloat := List.replicate w PyFloat.nan ++
    src.map (fun o => (o.map PyFloat.fin).getD PyFloat.nan) with hargdef
  have harglen : arg.length = prices.length := by
    rw [hargdef, List.length_append, List.length_replicate, List.length_map,
      hsrclen]
    omega
  have hargget : ∀ t : ℕ, t < prices.length - w →
      arg[w + t]? = (src[t]?).map
        (fun o => (o.map PyFloat.fin).getD PyFloat.nan) := by
    intro t ht
    rw [hargdef, List.getElem?_append,
      if_neg (by rw [List.length_replicate]; omega), List.length_replicate,
      Nat.add_sub_cancel_left, List.getElem?_map]
  have hbranch : volatilityBranch sq prices ps = .ok (nanToNoneF arg) := by
    simp only [volatilityBranch, hpeq, ← hweq]
    rw [if_neg (by omega : ¬ ((prices.length : ℤ) < p + 1)),
      if_neg (by omega : ¬ (p ≤ 0)), ← hretsdef, hannmap,
      if_pos (by omega : (prices.length : ℤ) > p), hslice,
      if_neg (by omega : ¬ (src.length ≠ prices.length - w))]
  refine ⟨nanToNoneF arg, hbranch, ?_, ?_, ?_⟩
  · rw [nanToNoneF, nanToNone, List.length_map, List.length_map, harglen]
  · intro i hi hip
    rw [nanToNoneF_getElem?]
    rcases Nat.lt_or_ge i w with hlt | hge
    · rw [hargdef, List.getElem?_append,
        if_pos (by rw [List.length_replicate]; omega),
        List.getElem?_replicate, if_pos hlt]
      rfl
    · have hie : i = w := by omega
      rw [hie]
      have h0 : (0 : ℕ) < prices.length - w := by omega
      have hget := hargget 0 h0
      rw [Nat.add_zero] at hget
      rw [hget, hsrcget 0 h0, Nat.add_zero,
        hrvaget (w - 2) (by omega), if_pos (by omega : w - 2 + 1 < w), hμnone]
      rfl
  · intro i hip hi
    obtain ⟨t, rfl⟩ : ∃ t : ℕ, i = w + t := ⟨i - w, by omega⟩
    have ht1 : 1 ≤ t := by omega
    have ht : t < prices.length - w := by omega
    rw [nanToNoneF_getElem?, hargget t ht, hsrcget t ht,
      hrvaget (w - 2 + t) (by omega),
      if_neg (by omega : ¬ (w - 2 + t + 1 < w)),
      show w - 2 + t + 1 - w = w + t - w - 1 from by omega]
    rw [hμdef]
    cases hann : annFlag ps <;> simp [hann]

/-- Too few prices make the VOLATILITY branch fail with its 400 error. -/
lemma volatilityBranch_err (sq : ℚ → ℚ) (prices : List ℚ) (ps : Params)
    (h : (prices.length : ℤ) < ps.period.getD 20 + 1) :
    volatilityBranch sq prices ps = .error (.client ("Need at least " ++
      toString (ps.period.getD 20 + 1) ++ " prices for volatility calculation")) := by
  simp only [volatilityBranch]
  rw [if_pos h]

/-- With `period = 1` the slice `rolling_vol[-1:-1]` is empty and the numpy
assignment raises its broadcast error. -/
lemma volatilityBranch_p1_err (sq : ℚ → ℚ) (prices : List ℚ) (ps : Params)
    (hpeq : ps.period.getD 20 = 1) (h2 : 2 ≤ prices.length) :
    volatilityBranch sq prices ps =
      .error (.py "ValueError: could not broadcast input array") := by
  have hrl : (rollingStd sq (pricesToReturns prices) 1).length =
      prices.length - 1 := by
    rw [rollingStd_length, pricesToReturns_length]
  simp only [volatilityBranch, hpeq]
  rw [if_neg (by omega : ¬ ((prices.length : ℤ) < 1 + 1)),
    if_neg (by omega : ¬ ((1 : ℤ) ≤ 0)),
    if_pos (by omega : (prices.length : ℤ) > 1),
    show ((1 : ℤ)).toNat = 1 from rfl,
    show (1 : ℤ) - 2 = -1 from by norm_num]
  have hLlen : (if annFlag ps then
      (rollingStd sq (pricesToReturns prices) 1).map
        (Option.map (fun x => x * sq 252))
    else rollingStd sq (pricesToReturns prices) 1).length =
      prices.length - 1 := by
    cases hann : annFlag ps <;> simp [hrl]
  have hcond : (pySlice (if annFlag ps then
      (rollingStd sq (pricesToReturns prices) 1).map
        (Option.map (fun x => x * sq 252))
    else rollingStd sq (pricesToReturns prices) 1) (-1) (-1)).length ≠
      prices.length - 1 := by
    unfold pySlice
    rw [pySliceIdx_neg_one _ (by rw [hLlen]; omega),
      List.length_drop, List.length_take, hLlen]
    omega
  rw [if_pos hcond]

/-- A successful VOLATILITY branch implies a window of at least 2 and enough
prices: every other configuration errors out. -/
lemma volatilityBranch_ok_inv (sq : ℚ → ℚ) (prices : List ℚ) (ps : Params)
    (V : List (Option PyFloat)) (h2 : 2 ≤ prices.length)
    (h : volatilityBranch sq prices ps = .ok V) :
    2 ≤ ps.period.getD 20 ∧
      ps.period.getD 20 + 1 ≤ (prices.length : ℤ) := by
  by_cases hg : (prices.length : ℤ) < ps.period.getD 20 + 1
  · rw [volatilityBranch_err sq prices ps hg] at h
    cases h
  · push_neg at hg
    refine ⟨?_, hg⟩
    by_contra hlt
    push_neg at hlt
    by_cases h0 : ps.period.getD 20 ≤ 0
    · have he : volatilityBranch sq prices ps =
          .error (.py "ValueError: window must be an integer 0 or greater") := by
        simp only [volatilityBranch]
        rw [if_neg (by omega), if_pos h0]
      rw [he] at h
      cases h
    · have hp1 : ps.period.getD 20 = 1 := by omega
      rw [volatilityBranch_p1_err sq prices ps hp1 h2] at h
      cases h

/-- With no zero price, the code's return series is the specification's. -/
lemma pricesToReturns_eq_simpleReturns (prices : List ℚ)
    (hz : ∀ x ∈ prices, x ≠ 0) :
    pricesToReturns prices = simpleReturns prices := by
  unfold pricesToReturns simpleReturns
  refine List.map_congr_left ?_
  intro j hj
  have hj' : j < prices.length - 1 := List.mem_range.mp hj
  have hjl : j < prices.length := by omega
  have hge : prices.getD j 0 = prices[j] := by
    rw [List.getD_eq_getElem?_getD, List.getElem?_eq_getElem hjl]
    rfl
  have h0 : prices.getD j 0 ≠ 0 := by
    rw [hge]
    exact hz _ (List.getElem_mem hjl)
  rw [sub_div, div_self h0]

/-- C1, counterexample: the claim quantifies over every window parameter, but
for `period = 1` (any price array of the then-required length) the slice
`rolling_vol[period-2:-1]` is `[-1:-1]`, the empty slice, and the numpy
broadcast assignment raises an uncaught `ValueError` — a 500, not the
missing-values output the claim predicts. -/
theorem volatility_claim_false :
    closeOnlyRoute talibZero id (some "VOLATILITY") [1, 2] { period := some 1 } =
      .error (.py "ValueError: could not broadcast input array") := by
  decide

/-- C1, amended: for a window `period ≥ 2` and nonzero prices (finite-float
divisions modelled exactly), a request with fewer than `period + 1` prices
fails with a 400 client error; otherwise the output has the input's length,
entries at indices below `period + 1` are missing, and the entry at index
`i ≥ period + 1` is the sample standard deviation of the simple returns
`d[i-period-1 .. i-2]`, times `sqrt 252` when annualization is on (the
default) — the square root function itself an abstract parameter `sq`
applied to the window's sample variance. -/
theorem volatility_spec (T : Talib) (sq : ℚ → ℚ) (prices : List ℚ)
    (ps : Params) (hp2 : 2 ≤ ps.period.getD 20) (hz : ∀ x ∈ prices, x ≠ 0) :
    ((prices.length : ℤ) < ps.period.getD 20 + 1 →
      ∃ msg : String, closeOnlyRoute T sq (some "VOLATILITY") prices ps =
        .error (.client msg)) ∧
    (ps.period.getD 20 + 1 ≤ (prices.length : ℤ) →
      ∃ V : List (Option PyFloat),
        closeOnlyRoute T sq (some "VOLATILITY") prices ps = .ok V ∧
        V.length = prices.length ∧
        (∀ i : ℕ, i < prices.length → (i : ℤ) < ps.period.getD 20 + 1 →
          V[i]? = some none) ∧
        (∀ i : ℕ, ps.period.getD 20 + 1 ≤ (i : ℤ) → i < prices.length →
          V[i]? = some (some (PyFloat.fin
            (if annFlag ps then
              sq (sampleVar (((simpleReturns prices).drop
                (i - (ps.period.getD 20).toNat - 1)).take
                (ps.period.getD 20).toNat)) * sq 252
            else
              sq (sampleVar (((simpleReturns prices).drop
                (i - (ps.period.getD 20).toNat - 1)).take
                (ps.period.getD 20).toNat))))))) := by
  constructor
  · intro hlen
    by_cases h2 : prices.length < 2
    · exact ⟨_, close_only_length_gate T sq _ prices ps h2⟩
    · have hroute : closeOnlyRoute T sq (some "VOLATILITY") prices ps =
          volatilityBranch sq prices ps := by
        rw [closeOnlyRoute_dispatch T sq _ prices ps h2,
          show pyStrip (pyUpper ((some "VOLATILITY").getD "")) = "VOLATILITY"
            from by decide, dispatch_volatility_name]
      exact ⟨_, by rw [hroute]; exact volatilityBranch_err sq prices ps hlen⟩
  · intro hlen
    have h2 : ¬ (prices.length < 2) := by omega
    have hroute : closeOnlyRoute T sq (some "VOLATILITY") prices ps =
        volatilityBranch sq prices ps := by
      rw [closeOnlyRoute_dispatch T sq _ prices ps h2,
        show pyStrip (pyUpper ((some "VOLATILITY").getD "")) = "VOLATILITY"
          from by decide, dispatch_volatility_name]
    obtain ⟨V, hV, hlenV, hlow, hhigh⟩ := volatilityBranch_ok sq prices ps
      (ps.period.getD 20) (ps.period.getD 20).toNat rfl rfl hp2 hlen
    rw [pricesToReturns_eq_simpleReturns prices hz] at hhigh
    exact ⟨V, by rw [hroute]; exact hV, hlenV, hlow, hhigh⟩

/-- C1, witness: the amended theorem on `[1, 2, 4, 8]` with window 2 and
annualization off. -/
theorem volatility_spec_witness :
    ∃ V : List (Option PyFloat),
      closeOnlyRoute talibZero id (some "VOLATILITY") [1, 2, 4, 8]
        { period := some 2, annualize := some "false" } = .ok V ∧
      V.length = ([1, 2, 4, 8] : List ℚ).length ∧
      (∀ i : ℕ, i < ([1, 2, 4, 8] : List ℚ).length → (i : ℤ) < 2 + 1 →
        V[i]? = some none) ∧
      (∀ i : ℕ, (2 : ℤ) + 1 ≤ (i : ℤ) → i < ([1, 2, 4, 8] : List ℚ).length →
        V[i]? = some (some (PyFloat.fin
          (sampleVar (((simpleReturns [1, 2, 4, 8]).drop
            (i - 2 - 1)).take 2))))) :=
  (volatility_spec talibZero id [1, 2, 4, 8]
    { period := some 2, annualize := some "false" } (by decide) (by decide)).2
    (by decide)

/-- C2: no-lookahead for rolling volatility. For two price arrays of the same
length differing only at position `i` (and any behaviours of the TA-Lib
collaborator), whenever both VOLATILITY requests succeed their outputs agree
at every index `j ≤ i`: the value assigned to day `j` is computed only from
prices strictly before day `j`, never from `P[j]` itself or anything later. -/
theorem volatility_no_lookahead (T Tn : Talib) (sq : ℚ → ℚ) (P Pn : List ℚ)
    (ps : Params) (i j : ℕ) (V Vn : List (Option PyFloat))
    (hlen : P.length = Pn.length)
    (hagree : ∀ k : ℕ, k < P.length → k ≠ i → P[k]? = Pn[k]?)
    (hji : j ≤ i)
    (hV : closeOnlyRoute T sq (some "VOLATILITY") P ps = .ok V)
    (hVn : closeOnlyRoute Tn sq (some "VOLATILITY") Pn ps = .ok Vn) :
    V[j]? = Vn[j]? := by
  by_cases h2 : P.length < 2
  · rw [close_only_length_gate T sq _ P ps h2] at hV
    cases hV
  · have h2n : ¬ (Pn.length < 2) := by omega
    rw [closeOnlyRoute_dispatch T sq _ P ps h2,
      show pyStrip (pyUpper ((some "VOLATILITY").getD "")) = "VOLATILITY"
        from by decide, dispatch_volatility_name] at hV
    rw [closeOnlyRoute_dispatch Tn sq _ Pn ps h2n,
      show pyStrip (pyUpper ((some "VOLATILITY").getD "")) = "VOLATILITY"
        from by decide, dispatch_volatility_name] at hVn
    obtain ⟨hp2, hplen⟩ :=
      volatilityBranch_ok_inv sq P ps V (by omega) hV
    obtain ⟨V₀, hV₀, hlenV, hlow, hhigh⟩ := volatilityBranch_ok sq P ps
      (ps.period.getD 20) (ps.period.getD 20).toNat rfl rfl hp2 hplen
    rw [hV] at hV₀
    injection hV₀ with hVeq
    subst hVeq
    obtain ⟨Vn₀, hVn₀, hlenVn, hlown, hhighn⟩ := volatilityBranch_ok sq Pn ps
      (ps.period.getD 20) (ps.period.getD 20).toNat rfl rfl hp2
      (by omega : ps.period.getD 20 + 1 ≤ (Pn.length : ℤ))
    rw [hVn] at hVn₀
    injection hVn₀ with hVneq
    subst hVneq
    have hw2 : 2 ≤ (ps.period.getD 20).toNat := by omega
    have hrets : ∀ u : ℕ, u + 1 < i →
        (pricesToReturns P)[u]? = (pricesToReturns Pn)[u]? := by
      intro u hu
      by_cases hur : u < P.length - 1
      · rw [pricesToReturns_getElem? P u hur,
          pricesToReturns_getElem? Pn u (by omega)]
        have hgu : P.getD u 0 = Pn.getD u 0 := by
          rw [List.getD_eq_getElem?_getD, List.getD_eq_getElem?_getD,
            hagree u (by omega) (by omega)]
        have hgu1 : P.getD (u + 1) 0 = Pn.getD (u + 1) 0 := by
          rw [List.getD_eq_getElem?_getD, List.getD_eq_getElem?_getD,
            hagree (u + 1) (by omega) (by omega)]
        rw [hgu, hgu1]
      · rw [List.getElem?_eq_none, List.getElem?_eq_none]
        · rw [pricesToReturns_length]
          omega
        · rw [pricesToReturns_length]
          omega
    have hwin : ∀ jj : ℕ, (ps.period.getD 20).toNat + 1 ≤ jj → jj ≤ i →
        ((pricesToReturns P).drop (jj - (ps.period.getD 20).toNat - 1)).take
          (ps.period.getD 20).toNat =
        ((pricesToReturns Pn).drop (jj - (ps.period.getD 20).toNat - 1)).take
          (ps.period.getD 20).toNat := by
      intro jj hj1 hj2
      apply List.ext_getElem?
      intro t
      rw [List.getElem?_take, List.getElem?_take]
      by_cases htw : t < (ps.period.getD 20).toNat
      · rw [if_pos htw, if_pos htw, List.getElem?_drop, List.getElem?_drop]
        apply hrets
        omega
      · rw [if_neg htw, if_neg htw]
    by_cases hjn : j < P.length
    · by_cases hjp : (j : ℤ) < ps.period.getD 20 + 1
      · rw [hlow j hjn hjp, hlown j (by omega) hjp]
      · push_neg at hjp
        rw [hhigh j hjp hjn, hhighn j hjp (by omega),
          hwin j (by omega) hji]
    · rw [List.getElem?_eq_none, List.getElem?_eq_none]
      · omega
      · omega

/-- C2, witness: `[1, 2, 3]` and `[1, 2, 9]` differ only at index 2; with
window 2 both requests succeed and the outputs agree at index `j = 2`. -/
theorem volatility_no_lookahead_witness :
    ([none, none, none] : List (Option PyFloat))[2]? =
      ([none, none, none] : List (Option PyFloat))[2]? :=
  volatility_no_lookahead talibZero talibZero id [1, 2, 3] [1, 2, 9]
    { period := some 2 } 2 2 [none, none, none] [none, none, none]
    (by decide) (by decide) (by decide) (by decide) (by decide)
